import Mathlib

/-!
Shallow embedding of the `defi_pool_backend` canister
(`src/src/defi_pool_backend/src/lib.rs`).

Rust `HashMap<String, V>` is modelled as an association list
(`AssocMap V`): `aget` is `HashMap::get`, `aset` is insert-or-replace
(`entry(k)` followed by `*entry = v`, or `insert`), `orInsert` is
`entry(k).or_insert(v)` when the entry is only read afterwards.
`Principal` is modelled as `String`.  External canister calls
(`transferFrom`, `mint`, the AI `risk` call) are modelled by passing
their outcome as an explicit argument; each operation additionally
returns the list of external calls it performed, so that "no external
call is made" is statable.

The USD aggregation helpers in the source compute in `f64`; on the
integer amounts involved here the computation is exact, so they are
modelled over `Nat` with the same fixed price table.
-/

namespace DefiPool

abbrev AssocMap (V : Type) := List (String × V)

/-- `HashMap::get` on the association-list model (first matching key). -/
def aget {V : Type} : AssocMap V → String → Option V
  | [], _ => none
  | (k', v) :: rest, k => if k' = k then some v else aget rest k

/-- Insert-or-replace: replaces the first binding of `k`, else appends. -/
def aset {V : Type} : AssocMap V → String → V → AssocMap V
  | [], k, v => [(k, v)]
  | (k', v') :: rest, k, v =>
      if k' = k then (k, v) :: rest else (k', v') :: aset rest k v

/-- Lookup with default (`get(..).cloned().unwrap_or(d)`). -/
def getOr {V : Type} (m : AssocMap V) (k : String) (d : V) : V :=
  (aget m k).getD d

/-- `entry(k).or_insert(v)`: inserts `v` only when `k` is absent. -/
def orInsert {V : Type} (m : AssocMap V) (k : String) (v : V) : AssocMap V :=
  if (aget m k).isSome then m else aset m k v

/-- `UserAccount` from `types.rs`. -/
structure UserAccount where
  deposited : Nat := 0
  borrowed : Nat := 0
  collateral : Nat := 0
  credit_score : Nat := 0
  risk_advice : Option String := none
  username : Option String := none
  deriving DecidableEq, Repr

/-- `RiskResponse` from `types.rs`: `risk_score` 0 = safe, 1 = high risk. -/
structure RiskResponse where
  risk_score : Nat
  advice : String
  deriving DecidableEq, Repr

/-- `DeFiPool` global state from `lib.rs`. -/
structure DeFiPool where
  users : AssocMap UserAccount := []
  stablecoin_balances : AssocMap (AssocMap Nat) := []
  collateral : AssocMap (AssocMap Nat) := []
  usernames : AssocMap String := []
  supported_tokens : List String := []
  token_canisters : AssocMap String := []
  mint_logs : List (String × String × Nat) := []
  per_user_mint_logs : AssocMap (List (String × Nat)) := []
  deriving DecidableEq, Repr

/-- `CrowdfundingPool` global state from `lib.rs`. -/
structure CrowdfundingPool where
  funds : AssocMap Nat := []
  contributors : AssocMap (AssocMap Nat) := []
  deriving DecidableEq, Repr

/-- External calls an operation performs, in order. -/
inductive ExtCall
  | risk
  | transferFrom (token : String) (amount : Nat)
  | mint (token : String) (amount : Nat)
  deriving DecidableEq, Repr

/-- `log_mint`: appends to both the global and the per-user mint logs. -/
def log_mint (pool : DeFiPool) (user token : String) (amount : Nat) : DeFiPool :=
  { pool with
    mint_logs := pool.mint_logs ++ [(user, token, amount)]
    per_user_mint_logs :=
      aset pool.per_user_mint_logs user
        (getOr pool.per_user_mint_logs user [] ++ [(token, amount)]) }

/-- `init_tokens`: seeds the supported-token list and the ICP canister id. -/
def init_tokens (pool : DeFiPool) : Bool × DeFiPool :=
  if pool.supported_tokens.isEmpty then
    (true, { pool with
      supported_tokens := ["ICP", "FAKEBTC", "FAKEETH"]
      token_canisters := aset pool.token_canisters "ICP" "ulvla-h7777-77774-qaacq-cai" })
  else (false, pool)

/-- `signup`: fails if the user exists, else creates an account with
credit score 700 and records the username. -/
def signup (pool : DeFiPool) (user username : String) : Bool × DeFiPool :=
  if (aget pool.users user).isSome then (false, pool)
  else
    (true, { pool with
      users := aset pool.users user { credit_score := 700 }
      usernames := aset pool.usernames user username })

/-- `add_token`: registers a token canister only when the token is already
in `supported_tokens`. -/
def add_token (pool : DeFiPool) (token principal : String) : Bool × DeFiPool :=
  if pool.supported_tokens.contains token then
    (true, { pool with token_canisters := aset pool.token_canisters token principal })
  else (false, pool)

/-- Fixed price table shared by `aggregate_collateral` / `aggregate_borrowed`
/ `aggregate_deposits` (unknown tokens default to 1). -/
def token_price (token : String) : Nat :=
  if token = "FAKEBTC" then 50000 else if token = "FAKEETH" then 3000 else 1

/-- USD aggregation of a per-token amount map (source computes in `f64`,
exact on these integer inputs). -/
def aggregate_usd (m : AssocMap Nat) : Nat :=
  (m.map (fun p => p.2 * token_price p.1)).sum

/-- `risk_check`: returns `none` immediately when no AI proxy principal is
configured (no call made); otherwise performs the external call, recording
the advice (or a fixed unavailable message) on the account. -/
def risk_check (proxy : Option String) (account : UserAccount)
    (callResult : Option RiskResponse) :
    Option RiskResponse × UserAccount × List ExtCall :=
  match proxy with
  | none => (none, account, [])
  | some _ =>
    match callResult with
    | some resp =>
        (some resp, { account with risk_advice := some resp.advice }, [ExtCall.risk])
    | none =>
        (none, { account with risk_advice := some "AI service unavailable" },
          [ExtCall.risk])

/-- `deposit`: requires a registered token canister, then transferFrom,
then mint, and only after both succeed updates the caller's stablecoin
balance and appends to the mint log. -/
def deposit (pool : DeFiPool) (caller token : String) (amount : Nat)
    (transferOk mintOk : Bool) : Bool × DeFiPool × List ExtCall :=
  match aget pool.token_canisters token with
  | none => (false, pool, [])
  | some _ =>
    if !transferOk then (false, pool, [ExtCall.transferFrom token amount])
    else if !mintOk then
      (false, pool, [ExtCall.transferFrom token amount, ExtCall.mint token amount])
    else
      let balances := getOr pool.stablecoin_balances caller []
      let entryVal := getOr balances token 0
      let pool1 := { pool with
        stablecoin_balances :=
          aset pool.stablecoin_balances caller (aset balances token (entryVal + amount)) }
      (true, log_mint pool1 caller token amount,
        [ExtCall.transferFrom token amount, ExtCall.mint token amount])

/-- `withdraw_collateral`: fails when `collateral < amount`; the
`entry(..).or_default()` / `or_insert(0)` insertions happen before the
check, so a failing call may still materialize zero entries. -/
def withdraw_collateral (pool : DeFiPool) (user token : String) (amount : Nat) :
    Bool × DeFiPool :=
  let user_coll := getOr pool.collateral user []
  let coll := getOr user_coll token 0
  if coll < amount then
    (false, { pool with
      collateral := aset pool.collateral user (orInsert user_coll token 0) })
  else
    (true, { pool with
      collateral := aset pool.collateral user (aset user_coll token (coll - amount)) })

/-- `repay`: fails when the caller's balance for the token is `< amount`;
same pre-check entry insertions as `withdraw_collateral`. -/
def repay (pool : DeFiPool) (caller token : String) (amount : Nat) :
    Bool × DeFiPool :=
  let balances := getOr pool.stablecoin_balances caller []
  let entryVal := getOr balances token 0
  if entryVal < amount then
    (false, { pool with
      stablecoin_balances :=
        aset pool.stablecoin_balances caller (orInsert balances token 0) })
  else
    (true, { pool with
      stablecoin_balances :=
        aset pool.stablecoin_balances caller (aset balances token (entryVal - amount)) })

/-- `borrow`: fails when the caller has no account or `risk_check` returns
`none`; otherwise unconditionally adds `amount` to the caller's stablecoin
balance for `token`, and, when the token has a registered canister, makes
the external mint call (its result is discarded by the source) and appends
to the mint log. `mintOk` models the discarded mint-call result. -/
def borrow (proxy : Option String) (pool : DeFiPool) (caller token : String)
    (amount : Nat) (riskCall : Option RiskResponse) (mintOk : Bool) :
    Bool × DeFiPool × List ExtCall :=
  match aget pool.users caller with
  | none => (false, pool, [])
  | some account =>
    let rc := risk_check proxy account riskCall
    let pool1 := { pool with users := aset pool.users caller rc.2.1 }
    match rc.1 with
    | none => (false, pool1, rc.2.2)
    | some _ =>
      let balances := getOr pool1.stablecoin_balances caller []
      let entryVal := getOr balances token 0
      let pool2 := { pool1 with
        stablecoin_balances :=
          aset pool1.stablecoin_balances caller (aset balances token (entryVal + amount)) }
      match aget pool2.token_canisters token with
      | some _ =>
          (true, log_mint pool2 caller token amount, rc.2.2 ++ [ExtCall.mint token amount])
      | none => (true, pool2, rc.2.2)

/-- `deposit_collateral`: unconditionally adds `amount` to the caller's
collateral, then runs `risk_check` (result ignored) when the caller has an
account, and always returns `true`. -/
def deposit_collateral (proxy : Option String) (pool : DeFiPool)
    (caller token : String) (amount : Nat) (riskCall : Option RiskResponse) :
    Bool × DeFiPool × List ExtCall :=
  let user_coll := getOr pool.collateral caller []
  let coll := getOr user_coll token 0
  let pool1 := { pool with
    collateral := aset pool.collateral caller (aset user_coll token (coll + amount)) }
  match aget pool1.users caller with
  | none => (true, pool1, [])
  | some account =>
    let rc := risk_check proxy account riskCall
    (true, { pool1 with users := aset pool1.users caller rc.2.1 }, rc.2.2)

/-- `contribute_crowdfund`: increments the global per-token total and the
caller's per-token contribution, then, when the token has a registered
canister, attempts the external mint and appends to the mint log only on
mint success. Always returns `true`. -/
def contribute_crowdfund (cf : CrowdfundingPool) (pool : DeFiPool)
    (caller token : String) (amount : Nat) (mintOk : Bool) :
    Bool × CrowdfundingPool × DeFiPool × List ExtCall :=
  let total := getOr cf.funds token 0
  let contribs := getOr cf.contributors caller []
  let entryVal := getOr contribs token 0
  let cf1 : CrowdfundingPool :=
    { funds := aset cf.funds token (total + amount)
      contributors := aset cf.contributors caller (aset contribs token (entryVal + amount)) }
  match aget pool.token_canisters token with
  | none => (true, cf1, pool, [])
  | some _ =>
    if mintOk then
      (true, cf1, log_mint pool caller token amount, [ExtCall.mint token amount])
    else (true, cf1, pool, [ExtCall.mint token amount])

/-- Query `get_balance`. -/
def get_balance (pool : DeFiPool) (user token : String) : Nat :=
  getOr (getOr pool.stablecoin_balances user []) token 0

/-- Collateral read with the same zero-default convention. -/
def get_collateral_amt (pool : DeFiPool) (user token : String) : Nat :=
  getOr (getOr pool.collateral user []) token 0

/-- Modelled from the spec: `required_collateral(borrowed_usd) =
borrowed_usd * 3 / 2` (150% collateralization, integer truncation).  No
such function exists anywhere in the source; it is the spec's invariant
language, defined here only to state the collateralization claims. -/
def required_collateral (borrowed_usd : Nat) : Nat := borrowed_usd * 3 / 2

/-- Whole-system state: the two global pools plus the AI proxy principal. -/
structure SysState where
  pool : DeFiPool := {}
  cf : CrowdfundingPool := {}
  proxy : Option String := none
  deriving DecidableEq, Repr

/-- One top-level canister operation, with external-call outcomes as data. -/
inductive Op
  | initTokens
  | signupOp (user username : String)
  | setAiProxy (principal : String)
  | addToken (token principal : String)
  | depositOp (caller token : String) (amount : Nat) (transferOk mintOk : Bool)
  | withdrawCollateralOp (user token : String) (amount : Nat)
  | borrowOp (caller token : String) (amount : Nat)
      (riskCall : Option RiskResponse) (mintOk : Bool)
  | repayOp (caller token : String) (amount : Nat)
  | depositCollateralOp (caller token : String) (amount : Nat)
      (riskCall : Option RiskResponse)
  | contributeCrowdfundOp (caller token : String) (amount : Nat) (mintOk : Bool)
  deriving DecidableEq, Repr

/-- State transition of one operation. -/
def stepOp (s : SysState) : Op → SysState
  | .initTokens => { s with pool := (init_tokens s.pool).2 }
  | .signupOp u n => { s with pool := (signup s.pool u n).2 }
  | .setAiProxy p => { s with proxy := some p }
  | .addToken t p => { s with pool := (add_token s.pool t p).2 }
  | .depositOp c t a tk mk => { s with pool := (deposit s.pool c t a tk mk).2.1 }
  | .withdrawCollateralOp u t a => { s with pool := (withdraw_collateral s.pool u t a).2 }
  | .borrowOp c t a r mk => { s with pool := (borrow s.proxy s.pool c t a r mk).2.1 }
  | .repayOp c t a => { s with pool := (repay s.pool c t a).2 }
  | .depositCollateralOp c t a r =>
      { s with pool := (deposit_collateral s.proxy s.pool c t a r).2.1 }
  | .contributeCrowdfundOp c t a mk =>
      let r := contribute_crowdfund s.cf s.pool c t a mk
      { s with cf := r.2.1, pool := r.2.2.1 }

/-- Running a list of operations from a state. -/
def runOps (ops : List Op) (s : SysState) : SysState := ops.foldl stepOp s

/-- Sum of all users' recorded contributions for one token. -/
def sumContrib (l : AssocMap (AssocMap Nat)) (t : String) : Nat :=
  (l.map (fun p => getOr p.2 t 0)).sum

/-- The crowdfund bookkeeping invariant: each token's global total equals
the sum of the per-user contributions. -/
def CFinv (cf : CrowdfundingPool) : Prop :=
  ∀ t : String, getOr cf.funds t 0 = sumContrib cf.contributors t

/-! ### Basic association-map lemmas -/

theorem aget_aset_self {V : Type} (m : AssocMap V) (k : String) (v : V) :
    aget (aset m k v) k = some v := by
  induction m with
  | nil => simp [aset, aget]
  | cons p rest ih =>
      obtain ⟨k', v'⟩ := p
      by_cases h : k' = k <;> simp [aset, aget, h, ih]

theorem aget_aset_ne {V : Type} (m : AssocMap V) (k k' : String) (v : V)
    (h : k' ≠ k) : aget (aset m k v) k' = aget m k' := by
  have hne : k ≠ k' := Ne.symm h
  induction m with
  | nil => simp [aset, aget, hne]
  | cons p rest ih =>
      obtain ⟨k'', v''⟩ := p
      by_cases hk : k'' = k
      · subst hk
        simp [aset, aget, hne]
      · simp only [aset, if_neg hk, aget]
        by_cases hk' : k'' = k' <;> simp [hk', ih]

theorem getOr_aset_self {V : Type} (m : AssocMap V) (k : String) (v d : V) :
    getOr (aset m k v) k d = v := by
  simp [getOr, aget_aset_self]

theorem getOr_aset_ne {V : Type} (m : AssocMap V) (k k' : String) (v d : V)
    (h : k' ≠ k) : getOr (aset m k v) k' d = getOr m k' d := by
  simp [getOr, aget_aset_ne _ _ _ _ h]

theorem aget_aset_isSome {V : Type} (m : AssocMap V) (k u : String) (v : V)
    (h : (aget m u).isSome) : (aget (aset m k v) u).isSome := by
  by_cases hk : u = k
  · subst hk; simp [aget_aset_self]
  · rwa [aget_aset_ne _ _ _ _ hk]

theorem getOr_cons_self {V : Type} (k : String) (v : V) (rest : AssocMap V)
    (d : V) : getOr ((k, v) :: rest) k d = v := by
  simp [getOr, aget]

theorem getOr_cons_ne {V : Type} (k k' : String) (v : V) (rest : AssocMap V)
    (d : V) (h : k' ≠ k) : getOr ((k, v) :: rest) k' d = getOr rest k' d := by
  simp [getOr, aget, Ne.symm h]

theorem getOr_orInsert_default {V : Type} (m : AssocMap V) (k k' : String) (d : V) :
    getOr (orInsert m k d) k' d = getOr m k' d := by
  unfold orInsert
  cases hg : aget m k with
  | some v => simp [hg]
  | none =>
      simp only [hg, Option.isSome_none, Bool.false_eq_true, if_false]
      by_cases hk : k' = k
      · subst hk
        rw [getOr_aset_self]
        simp [getOr, hg]
      · exact getOr_aset_ne _ _ _ _ _ hk

theorem sumContrib_aset (l : AssocMap (AssocMap Nat)) (k : String)
    (m : AssocMap Nat) (t : String) (a : Nat)
    (h : getOr m t 0 = getOr (getOr l k []) t 0 + a) :
    sumContrib (aset l k m) t = sumContrib l t + a := by
  induction l with
  | nil =>
      simp only [getOr, aget, Option.getD_none] at h
      simp only [aset, sumContrib, List.map_cons, List.map_nil, List.sum_cons,
        List.sum_nil, getOr]
      omega
  | cons p rest ih =>
      obtain ⟨k', v'⟩ := p
      by_cases hk : k' = k
      · subst hk
        rw [getOr_cons_self] at h
        have hset : aset ((k', v') :: rest) k' m = (k', m) :: rest := by simp [aset]
        rw [hset]
        simp only [sumContrib, List.map_cons, List.sum_cons]
        rw [h]
        omega
      · rw [getOr_cons_ne _ _ _ _ _ (Ne.symm hk)] at h
        simp only [aset, if_neg hk, sumContrib, List.map_cons, List.sum_cons]
        have hrec := ih h
        simp only [sumContrib] at hrec
        rw [hrec]
        omega

end DefiPool

namespace DefiPool

/-! ### Concrete example states -/

/-- A pool with the single signed-up user "alice". -/
def poolA : DeFiPool := (signup {} "alice" "Alice").2

/-- `poolA` after `init_tokens` (ICP canister registered). -/
def poolReg : DeFiPool := (init_tokens poolA).2

/-- `poolReg` after alice deposits 150 ICP collateral (risk address unset). -/
def poolColl : DeFiPool := (deposit_collateral none poolReg "alice" "ICP" 150 none).2.1

/-- A high-risk response (`risk_score` 1) from the AI proxy. -/
def highRisk : RiskResponse := { risk_score := 1, advice := "High risk" }

/-- A safe response (`risk_score` 0) from the AI proxy. -/
def safeResp : RiskResponse := { risk_score := 0, advice := "Safe to borrow" }

/-- `poolColl` after alice borrows 100 ICP (proxy set, safe verdict). -/
def poolBorrowed : DeFiPool :=
  (borrow (some "proxy") poolColl "alice" "ICP" 100 (some safeResp) true).2.1

end DefiPool

namespace DefiPool

/-! ### C1 -/

/-- C1 counterexample: the claim says that with the Risk Service address
unset, `borrow` succeeds whenever the Phase-1 collateral check passes.  In
`poolColl` alice has 150 ICP collateral and borrows 10 (required collateral
15, amply covered), the risk address is unset — yet `borrow` returns
`false`: the code fails closed for `borrow`. -/
theorem C1_counterexample :
    get_collateral_amt poolColl "alice" "ICP" = 150 ∧
    get_balance poolColl "alice" "ICP" = 0 ∧
    aggregate_usd (getOr poolColl.collateral "alice" []) ≥
      required_collateral (aggregate_usd
        (aset (getOr poolColl.stablecoin_balances "alice" []) "ICP" 10)) ∧
    ¬ ((borrow none poolColl "alice" "ICP" 10 none true).1 = true) := by
  decide

/-- C1 (amended): when the Risk Service address is unset or the risk call
fails, `deposit_collateral` returns `true` and its tentative collateral
increase stands, but `borrow` returns `false` (risk unavailability blocks
borrowing) while leaving the stablecoin balances and mint log unchanged. -/
theorem C1_amended (proxy : Option String) (pool : DeFiPool)
    (caller token : String) (amount : Nat) (riskCall : Option RiskResponse)
    (mintOk : Bool) (h : proxy = none ∨ riskCall = none) :
    (deposit_collateral proxy pool caller token amount riskCall).1 = true ∧
    get_collateral_amt (deposit_collateral proxy pool caller token amount riskCall).2.1
        caller token = get_collateral_amt pool caller token + amount ∧
    (borrow proxy pool caller token amount riskCall mintOk).1 = false ∧
    (borrow proxy pool caller token amount riskCall mintOk).2.1.stablecoin_balances
        = pool.stablecoin_balances ∧
    (borrow proxy pool caller token amount riskCall mintOk).2.1.mint_logs
        = pool.mint_logs := by
  have hdc :
      (deposit_collateral proxy pool caller token amount riskCall).1 = true ∧
      get_collateral_amt (deposit_collateral proxy pool caller token amount riskCall).2.1
          caller token = get_collateral_amt pool caller token + amount := by
    cases hu : aget pool.users caller with
    | none => simp [deposit_collateral, hu, get_collateral_amt, getOr_aset_self]
    | some account => simp [deposit_collateral, hu, get_collateral_amt, getOr_aset_self]
  refine ⟨hdc.1, hdc.2, ?_⟩
  cases hu : aget pool.users caller with
  | none => simp [borrow, hu]
  | some account =>
      rcases h with h | h
      · subst h
        simp [borrow, hu, risk_check]
      · subst h
        cases proxy with
        | none => simp [borrow, hu, risk_check]
        | some p => simp [borrow, hu, risk_check]

/-- Witness for C1 (amended) at a concrete input. -/
theorem C1_amended_witness :
    ((none : Option String) = none ∨ (none : Option RiskResponse) = none) ∧
    ((deposit_collateral none poolReg "alice" "ICP" 150 none).1 = true ∧
     get_collateral_amt (deposit_collateral none poolReg "alice" "ICP" 150 none).2.1
        "alice" "ICP" = get_collateral_amt poolReg "alice" "ICP" + 150 ∧
     (borrow none poolReg "alice" "ICP" 150 none true).1 = false ∧
     (borrow none poolReg "alice" "ICP" 150 none true).2.1.stablecoin_balances
        = poolReg.stablecoin_balances ∧
     (borrow none poolReg "alice" "ICP" 150 none true).2.1.mint_logs
        = poolReg.mint_logs) :=
  ⟨Or.inl rfl,
    C1_amended none poolReg "alice" "ICP" 150 none true (Or.inl rfl)⟩

/-! ### C2 -/

/-- C2 counterexample: alice has borrowed B = 0 and 150 ICP collateral
(Phase-1 of the spec would pass a borrow of A = 10); the Risk Gate returns
a `high_risk` verdict — yet `borrow` succeeds, the balance ends at
B + A = 10 (nothing is reverted) and the external mint call is made. -/
theorem C2_counterexample :
    highRisk.risk_score = 1 ∧
    get_balance poolColl "alice" "ICP" = 0 ∧
    (borrow (some "proxy") poolColl "alice" "ICP" 10 (some highRisk) true).1 = true ∧
    get_balance (borrow (some "proxy") poolColl "alice" "ICP" 10 (some highRisk) true).2.1
        "alice" "ICP" = 10 ∧
    ¬ (get_balance (borrow (some "proxy") poolColl "alice" "ICP" 10
          (some highRisk) true).2.1 "alice" "ICP" = 0 ∧
        ExtCall.mint "ICP" 10 ∉
          (borrow (some "proxy") poolColl "alice" "ICP" 10 (some highRisk) true).2.2) := by
  decide

/-- C2 (amended): the code contains no revert logic at all.  Whenever the
caller has an account and the Risk Gate returns any verdict (`high_risk`
included), `borrow` succeeds, the caller's balance for the token ends at
its prior value plus the amount, and when the token is registered the
external mint call is made; `deposit_collateral` likewise leaves the
collateral at its prior value plus the amount for every verdict. -/
theorem C2_amended (p : String) (pool : DeFiPool) (caller token : String)
    (amount : Nat) (resp : RiskResponse) (mintOk : Bool) (account : UserAccount)
    (hacc : aget pool.users caller = some account) :
    (borrow (some p) pool caller token amount (some resp) mintOk).1 = true ∧
    get_balance (borrow (some p) pool caller token amount (some resp) mintOk).2.1
        caller token = get_balance pool caller token + amount ∧
    ((aget pool.token_canisters token).isSome →
      ExtCall.mint token amount ∈
        (borrow (some p) pool caller token amount (some resp) mintOk).2.2) ∧
    get_collateral_amt (deposit_collateral (some p) pool caller token amount
        (some resp)).2.1 caller token
      = get_collateral_amt pool caller token + amount := by
  cases htc : aget pool.token_canisters token with
  | none =>
      simp [borrow, hacc, risk_check, htc, get_balance, getOr_aset_self, log_mint,
        deposit_collateral, get_collateral_amt]
  | some q =>
      simp [borrow, hacc, risk_check, htc, get_balance, getOr_aset_self, log_mint,
        deposit_collateral, get_collateral_amt]

/-- Witness for C2 (amended) at a concrete input. -/
theorem C2_amended_witness :
    aget poolColl.users "alice" = some { credit_score := 700 } ∧
    ((borrow (some "proxy") poolColl "alice" "ICP" 10 (some highRisk) true).1 = true ∧
     get_balance (borrow (some "proxy") poolColl "alice" "ICP" 10 (some highRisk) true).2.1
        "alice" "ICP" = get_balance poolColl "alice" "ICP" + 10 ∧
     ((aget poolColl.token_canisters "ICP").isSome →
       ExtCall.mint "ICP" 10 ∈
         (borrow (some "proxy") poolColl "alice" "ICP" 10 (some highRisk) true).2.2) ∧
     get_collateral_amt (deposit_collateral (some "proxy") poolColl "alice" "ICP" 10
        (some highRisk)).2.1 "alice" "ICP"
       = get_collateral_amt poolColl "alice" "ICP" + 10) :=
  ⟨by decide,
    C2_amended "proxy" poolColl "alice" "ICP" 10 highRisk true
      { credit_score := 700 } (by decide)⟩

/-! ### C3 -/

/-- C3 counterexample: alice has zero collateral; with the risk proxy set
and a safe verdict, `borrow` of 100 ICP succeeds, leaving USD collateral
0 below the required 150 — the 150% collateralization invariant is not
enforced after operations complete. -/
theorem C3_counterexample :
    get_collateral_amt poolReg "alice" "ICP" = 0 ∧
    (borrow (some "proxy") poolReg "alice" "ICP" 100 (some safeResp) true).1 = true ∧
    aggregate_usd (getOr (borrow (some "proxy") poolReg "alice" "ICP" 100
        (some safeResp) true).2.1.collateral "alice" []) = 0 ∧
    aggregate_usd (getOr (borrow (some "proxy") poolReg "alice" "ICP" 100
        (some safeResp) true).2.1.stablecoin_balances "alice" []) = 100 ∧
    ¬ (required_collateral (aggregate_usd (getOr (borrow (some "proxy") poolReg "alice"
          "ICP" 100 (some safeResp) true).2.1.stablecoin_balances "alice" [])) ≤
        aggregate_usd (getOr (borrow (some "proxy") poolReg "alice" "ICP" 100
          (some safeResp) true).2.1.collateral "alice" [])) := by
  decide

/-- C3 (amended): all amounts are non-negative by construction and
subtraction is guarded — `withdraw_collateral` succeeds exactly when the
amount is at most the recorded collateral (then subtracts exactly it) and
`repay` succeeds exactly when the amount is at most the recorded balance
(then subtracts exactly it) — but no operation enforces the 150%
USD collateralization ratio; `borrow` checks no collateral at all. -/
theorem C3_amended (pool : DeFiPool) (user token : String) (amount : Nat) :
    ((withdraw_collateral pool user token amount).1 = true ↔
      amount ≤ get_collateral_amt pool user token) ∧
    ((withdraw_collateral pool user token amount).1 = true →
      get_collateral_amt (withdraw_collateral pool user token amount).2 user token
        = get_collateral_amt pool user token - amount) ∧
    ((repay pool user token amount).1 = true ↔
      amount ≤ get_balance pool user token) ∧
    ((repay pool user token amount).1 = true →
      get_balance (repay pool user token amount).2 user token
        = get_balance pool user token - amount) := by
  constructor
  · by_cases hlt : getOr (getOr pool.collateral user []) token 0 < amount <;>
      simp [withdraw_collateral, hlt, get_collateral_amt] <;> omega
  constructor
  · intro hs
    by_cases hlt : getOr (getOr pool.collateral user []) token 0 < amount
    · simp [withdraw_collateral, hlt] at hs
    · simp [withdraw_collateral, hlt, get_collateral_amt, getOr_aset_self]
  constructor
  · by_cases hlt : getOr (getOr pool.stablecoin_balances user []) token 0 < amount <;>
      simp [repay, hlt, get_balance] <;> omega
  · intro hs
    by_cases hlt : getOr (getOr pool.stablecoin_balances user []) token 0 < amount
    · simp [repay, hlt] at hs
    · simp [repay, hlt, get_balance, getOr_aset_self]

/-- Witness for C3 (amended) at a concrete input. -/
theorem C3_amended_witness :
    ((withdraw_collateral poolColl "alice" "ICP" 50).1 = true ↔
      50 ≤ get_collateral_amt poolColl "alice" "ICP") ∧
    ((withdraw_collateral poolColl "alice" "ICP" 50).1 = true →
      get_collateral_amt (withdraw_collateral poolColl "alice" "ICP" 50).2 "alice" "ICP"
        = get_collateral_amt poolColl "alice" "ICP" - 50) ∧
    ((repay poolColl "alice" "ICP" 50).1 = true ↔
      50 ≤ get_balance poolColl "alice" "ICP") ∧
    ((repay poolColl "alice" "ICP" 50).1 = true →
      get_balance (repay poolColl "alice" "ICP" 50).2 "alice" "ICP"
        = get_balance poolColl "alice" "ICP" - 50) :=
  C3_amended poolColl "alice" "ICP" 50

/-! ### C4 -/

/-- C4 counterexample: the spec's own scenario — collateral 150, borrowed
100, a further borrow of 1 "must fail Phase 1 without any external call".
In the code the borrow of 1 makes the risk call, succeeds, and leaves the
balance at 101. -/
theorem C4_counterexample :
    get_collateral_amt poolBorrowed "alice" "ICP" = 150 ∧
    get_balance poolBorrowed "alice" "ICP" = 100 ∧
    (borrow (some "proxy") poolBorrowed "alice" "ICP" 1 (some safeResp) true).1 = true ∧
    ExtCall.risk ∈ (borrow (some "proxy") poolBorrowed "alice" "ICP" 1
        (some safeResp) true).2.2 ∧
    get_balance (borrow (some "proxy") poolBorrowed "alice" "ICP" 1
        (some safeResp) true).2.1 "alice" "ICP" = 101 ∧
    ¬ ((borrow (some "proxy") poolBorrowed "alice" "ICP" 1 (some safeResp) true).1 = false ∧
        (borrow (some "proxy") poolBorrowed "alice" "ICP" 1 (some safeResp) true).2.2 = []) := by
  decide

/-- C4 (amended): `borrow` performs no Phase-1 collateral-policy check.
Its only rejection with no external call and no state change is a missing
caller account; whenever the caller has an account and the proxy is set,
the external risk call is performed, whatever the collateralization. -/
theorem C4_amended (proxy : Option String) (pool : DeFiPool) (caller token : String)
    (amount : Nat) (riskCall : Option RiskResponse) (mintOk : Bool) :
    (aget pool.users caller = none →
      borrow proxy pool caller token amount riskCall mintOk = (false, pool, [])) ∧
    (∀ (p : String) (account : UserAccount), proxy = some p →
      aget pool.users caller = some account →
      ExtCall.risk ∈ (borrow proxy pool caller token amount riskCall mintOk).2.2) := by
  constructor
  · intro hnone
    simp [borrow, hnone]
  · intro p account hp hacc
    subst hp
    cases riskCall with
    | none => simp [borrow, hacc, risk_check]
    | some resp =>
        cases htc : aget pool.token_canisters token with
        | none => simp [borrow, hacc, risk_check, htc]
        | some q => simp [borrow, hacc, risk_check, htc]

/-- Witness for C4 (amended): the missing-account rejection at the empty
pool, and the risk call being made for alice in `poolBorrowed`. -/
theorem C4_amended_witness :
    (borrow (some "proxy") ({} : DeFiPool) "alice" "ICP" 1 (some safeResp) true
        = (false, ({} : DeFiPool), [])) ∧
    ExtCall.risk ∈ (borrow (some "proxy") poolBorrowed "alice" "ICP" 1
        (some safeResp) true).2.2 :=
  ⟨(C4_amended (some "proxy") {} "alice" "ICP" 1 (some safeResp) true).1 (by decide),
    (C4_amended (some "proxy") poolBorrowed "alice" "ICP" 1 (some safeResp) true).2
      "proxy" { credit_score := 700, risk_advice := some "Safe to borrow" }
      rfl (by decide)⟩

/-! ### C5 -/

/-- C5 counterexample: "DOGE" is in no registry, yet `borrow` of 10 DOGE
succeeds and credits alice's internal DOGE balance (only the external mint
and the mint log are skipped). -/
theorem C5_counterexample :
    aget poolColl.token_canisters "DOGE" = none ∧
    poolColl.supported_tokens.contains "DOGE" = false ∧
    (borrow (some "proxy") poolColl "alice" "DOGE" 10 (some safeResp) true).1 = true ∧
    get_balance (borrow (some "proxy") poolColl "alice" "DOGE" 10
        (some safeResp) true).2.1 "alice" "DOGE" = 10 ∧
    ¬ ((borrow (some "proxy") poolColl "alice" "DOGE" 10 (some safeResp) true).1 = false ∧
        (borrow (some "proxy") poolColl "alice" "DOGE" 10
            (some safeResp) true).2.1.stablecoin_balances
          = poolColl.stablecoin_balances) := by
  decide

/-- C5 (amended): `deposit` of a token with no registered canister fails
with no state change and no external call, and `add_token` refuses tokens
absent from `supported_tokens` — but `borrow` of an unregistered token
still succeeds when risk-gated, adding the amount to the caller's internal
balance; only the external mint and the Mint Log entry are skipped. -/
theorem C5_amended (pool : DeFiPool) (caller token princ : String) (amount : Nat)
    (tOk mOk : Bool) (p : String) (resp : RiskResponse) (account : UserAccount)
    (hreg : aget pool.token_canisters token = none) :
    deposit pool caller token amount tOk mOk = (false, pool, []) ∧
    (aget pool.users caller = some account →
      (borrow (some p) pool caller token amount (some resp) mOk).1 = true ∧
      get_balance (borrow (some p) pool caller token amount (some resp) mOk).2.1
          caller token = get_balance pool caller token + amount ∧
      (borrow (some p) pool caller token amount (some resp) mOk).2.1.mint_logs
          = pool.mint_logs ∧
      ExtCall.mint token amount ∉
        (borrow (some p) pool caller token amount (some resp) mOk).2.2) ∧
    (pool.supported_tokens.contains token = false →
      add_token pool token princ = (false, pool)) := by
  refine ⟨?_, ?_, ?_⟩
  · simp [deposit, hreg]
  · intro hacc
    simp [borrow, hacc, risk_check, hreg, get_balance, getOr_aset_self]
  · intro hsup
    have hmem : token ∉ pool.supported_tokens := by simpa using hsup
    simp [add_token, hmem]

/-- Witness for C5 (amended) at a concrete input. -/
theorem C5_amended_witness :
    aget poolColl.token_canisters "DOGE" = none ∧
    (deposit poolColl "alice" "DOGE" 10 true true = (false, poolColl, []) ∧
     (aget poolColl.users "alice" = some { credit_score := 700 } →
       (borrow (some "proxy") poolColl "alice" "DOGE" 10 (some safeResp) true).1 = true ∧
       get_balance (borrow (some "proxy") poolColl "alice" "DOGE" 10
           (some safeResp) true).2.1 "alice" "DOGE"
         = get_balance poolColl "alice" "DOGE" + 10 ∧
       (borrow (some "proxy") poolColl "alice" "DOGE" 10
           (some safeResp) true).2.1.mint_logs = poolColl.mint_logs ∧
       ExtCall.mint "DOGE" 10 ∉
         (borrow (some "proxy") poolColl "alice" "DOGE" 10 (some safeResp) true).2.2) ∧
     (poolColl.supported_tokens.contains "DOGE" = false →
       add_token poolColl "DOGE" "whatever" = (false, poolColl))) :=
  ⟨by decide,
    C5_amended poolColl "alice" "DOGE" "whatever" 10 true true "proxy" safeResp
      { credit_score := 700 } (by decide)⟩

/-! ### C6 -/

/-- C6 counterexample: the external mint for a risk-gated borrow of a
registered token returns failure, yet a Mint Log entry is appended anyway
— `borrow` discards the mint call's result. -/
theorem C6_counterexample :
    poolColl.mint_logs = [] ∧
    (borrow (some "proxy") poolColl "alice" "ICP" 10 (some safeResp) false).2.1.mint_logs
      = [("alice", "ICP", 10)] ∧
    ¬ ((borrow (some "proxy") poolColl "alice" "ICP" 10
          (some safeResp) false).2.1.mint_logs = poolColl.mint_logs) := by
  decide

/-- C6 (amended): `contribute_crowdfund` appends a Mint Log entry exactly
when the token has a registered canister and the mint call succeeds, but
`borrow` appends the entry exactly when the token has a registered
canister, regardless of the mint call's result. -/
theorem C6_amended (cf : CrowdfundingPool) (pool : DeFiPool) (caller token : String)
    (amount : Nat) (mintOk : Bool) (p : String) (resp : RiskResponse)
    (account : UserAccount) (hacc : aget pool.users caller = some account) :
    ((contribute_crowdfund cf pool caller token amount mintOk).2.2.1.mint_logs
        = pool.mint_logs ++ [(caller, token, amount)] ↔
      (aget pool.token_canisters token).isSome ∧ mintOk = true) ∧
    ((contribute_crowdfund cf pool caller token amount mintOk).2.2.1.mint_logs
          = pool.mint_logs ∨
      (contribute_crowdfund cf pool caller token amount mintOk).2.2.1.mint_logs
          = pool.mint_logs ++ [(caller, token, amount)]) ∧
    ((borrow (some p) pool caller token amount (some resp) mintOk).2.1.mint_logs
        = pool.mint_logs ++ [(caller, token, amount)] ↔
      (aget pool.token_canisters token).isSome) := by
  cases htc : aget pool.token_canisters token with
  | none =>
      cases mintOk <;>
        simp [contribute_crowdfund, borrow, hacc, risk_check, htc, log_mint]
  | some q =>
      cases mintOk <;>
        simp [contribute_crowdfund, borrow, hacc, risk_check, htc, log_mint]

/-- Witness for C6 (amended) at a concrete input. -/
theorem C6_amended_witness :
    aget poolColl.users "alice" = some { credit_score := 700 } ∧
    (((contribute_crowdfund {} poolColl "alice" "ICP" 10 false).2.2.1.mint_logs
        = poolColl.mint_logs ++ [("alice", "ICP", 10)] ↔
      (aget poolColl.token_canisters "ICP").isSome ∧ false = true) ∧
     ((contribute_crowdfund {} poolColl "alice" "ICP" 10 false).2.2.1.mint_logs
          = poolColl.mint_logs ∨
      (contribute_crowdfund {} poolColl "alice" "ICP" 10 false).2.2.1.mint_logs
          = poolColl.mint_logs ++ [("alice", "ICP", 10)]) ∧
     ((borrow (some "proxy") poolColl "alice" "ICP" 10
          (some safeResp) false).2.1.mint_logs
        = poolColl.mint_logs ++ [("alice", "ICP", 10)] ↔
      (aget poolColl.token_canisters "ICP").isSome)) :=
  ⟨by decide,
    C6_amended {} poolColl "alice" "ICP" 10 false "proxy" safeResp
      { credit_score := 700 } (by decide)⟩

/-! ### C7 -/

/-- C7: `deposit` updates the internal balance and appends the Mint Log
entry only when the token is registered and both external steps
(transferFrom, then mint) report success; any failure leaves the entire
pool state unchanged and returns `false`. -/
theorem C7_theorem (pool : DeFiPool) (caller token : String) (amount : Nat)
    (tOk mOk : Bool) :
    ((deposit pool caller token amount tOk mOk).1 = true ↔
      (aget pool.token_canisters token).isSome = true ∧ tOk = true ∧ mOk = true) ∧
    ((deposit pool caller token amount tOk mOk).1 = false →
      (deposit pool caller token amount tOk mOk).2.1 = pool) ∧
    ((deposit pool caller token amount tOk mOk).1 = true →
      (deposit pool caller token amount tOk mOk).2.1.mint_logs
        = pool.mint_logs ++ [(caller, token, amount)] ∧
      get_balance (deposit pool caller token amount tOk mOk).2.1 caller token
        = get_balance pool caller token + amount) := by
  cases htc : aget pool.token_canisters token with
  | none => simp [deposit, htc]
  | some q =>
      cases tOk <;> cases mOk <;>
        simp [deposit, htc, log_mint, get_balance, getOr_aset_self]

/-- Witness for C7 at a concrete input (both external steps succeed). -/
theorem C7_witness :
    ((deposit poolColl "alice" "ICP" 25 true true).1 = true ↔
      (aget poolColl.token_canisters "ICP").isSome = true ∧ true = true ∧ true = true) ∧
    ((deposit poolColl "alice" "ICP" 25 true true).1 = false →
      (deposit poolColl "alice" "ICP" 25 true true).2.1 = poolColl) ∧
    ((deposit poolColl "alice" "ICP" 25 true true).1 = true →
      (deposit poolColl "alice" "ICP" 25 true true).2.1.mint_logs
        = poolColl.mint_logs ++ [("alice", "ICP", 25)] ∧
      get_balance (deposit poolColl "alice" "ICP" 25 true true).2.1 "alice" "ICP"
        = get_balance poolColl "alice" "ICP" + 25) :=
  C7_theorem poolColl "alice" "ICP" 25 true true

/-! ### C8 -/

/-- C8 counterexample: a `withdraw_collateral` for a user with no
collateral entry returns `false` but does not leave the ledger maps
exactly equal: the pre-check `entry(..).or_default()` / `or_insert(0)`
calls materialize an explicit zero entry in the collateral map. -/
theorem C8_counterexample :
    (withdraw_collateral ({} : DeFiPool) "bob" "ICP" 1).1 = false ∧
    (withdraw_collateral ({} : DeFiPool) "bob" "ICP" 1).2.collateral
      = [("bob", [("ICP", 0)])] ∧
    ¬ ((withdraw_collateral ({} : DeFiPool) "bob" "ICP" 1).2 = ({} : DeFiPool)) := by
  decide

/-- C8 (amended): a failing `repay` or `withdraw_collateral` returns
`false` and leaves every readable amount and every other ledger field
unchanged — but the touched balance/collateral map may gain an explicit
zero entry for the queried user and token, so the maps need not be
exactly equal as data structures. -/
theorem C8_amended (pool : DeFiPool) (user token : String) (amount : Nat) :
    ((repay pool user token amount).1 = false →
      (∀ u t, get_balance (repay pool user token amount).2 u t = get_balance pool u t) ∧
      (repay pool user token amount).2.collateral = pool.collateral ∧
      (repay pool user token amount).2.users = pool.users ∧
      (repay pool user token amount).2.mint_logs = pool.mint_logs) ∧
    ((withdraw_collateral pool user token amount).1 = false →
      (∀ u t, get_collateral_amt (withdraw_collateral pool user token amount).2 u t
          = get_collateral_amt pool u t) ∧
      (withdraw_collateral pool user token amount).2.stablecoin_balances
          = pool.stablecoin_balances ∧
      (withdraw_collateral pool user token amount).2.users = pool.users ∧
      (withdraw_collateral pool user token amount).2.mint_logs = pool.mint_logs) := by
  constructor
  · intro hf
    by_cases hlt : getOr (getOr pool.stablecoin_balances user []) token 0 < amount
    · refine ⟨?_, ?_, ?_, ?_⟩ <;> simp [repay, hlt, get_balance]
      intro u t
      by_cases hu : u = user
      · subst hu
        rw [getOr_aset_self, getOr_orInsert_default]
      · rw [getOr_aset_ne _ _ _ _ _ hu]
    · simp [repay, hlt] at hf
  · intro hf
    by_cases hlt : getOr (getOr pool.collateral user []) token 0 < amount
    · refine ⟨?_, ?_, ?_, ?_⟩ <;> simp [withdraw_collateral, hlt, get_collateral_amt]
      intro u t
      by_cases hu : u = user
      · subst hu
        rw [getOr_aset_self, getOr_orInsert_default]
      · rw [getOr_aset_ne _ _ _ _ _ hu]
    · simp [withdraw_collateral, hlt] at hf

/-- Witness for C8 (amended) at a concrete input (alice has no balance,
so a repay of 1 is a policy violation). -/
theorem C8_amended_witness :
    ((repay poolColl "alice" "ICP" 1).1 = false →
      (∀ u t, get_balance (repay poolColl "alice" "ICP" 1).2 u t
          = get_balance poolColl u t) ∧
      (repay poolColl "alice" "ICP" 1).2.collateral = poolColl.collateral ∧
      (repay poolColl "alice" "ICP" 1).2.users = poolColl.users ∧
      (repay poolColl "alice" "ICP" 1).2.mint_logs = poolColl.mint_logs) ∧
    ((withdraw_collateral poolColl "alice" "ICP" 200).1 = false →
      (∀ u t, get_collateral_amt (withdraw_collateral poolColl "alice" "ICP" 200).2 u t
          = get_collateral_amt poolColl u t) ∧
      (withdraw_collateral poolColl "alice" "ICP" 200).2.stablecoin_balances
          = poolColl.stablecoin_balances ∧
      (withdraw_collateral poolColl "alice" "ICP" 200).2.users = poolColl.users ∧
      (withdraw_collateral poolColl "alice" "ICP" 200).2.mint_logs
          = poolColl.mint_logs) :=
  ⟨(C8_amended poolColl "alice" "ICP" 1).1,
    (C8_amended poolColl "alice" "ICP" 200).2⟩

/-! ### C9 -/

/-- C9: `signup` called twice for the same user succeeds the first time
(creating an account with the fixed initial credit score 700), fails the
second time, and the ledger state after the failed second call equals the
state after the first; moreover no operation ever removes an account. -/
theorem C9_theorem (pool : DeFiPool) (u n1 n2 : String)
    (hnew : aget pool.users u = none) :
    (signup pool u n1).1 = true ∧
    aget (signup pool u n1).2.users u = some { credit_score := 700 } ∧
    (signup (signup pool u n1).2 u n2).1 = false ∧
    (signup (signup pool u n1).2 u n2).2 = (signup pool u n1).2 ∧
    (∀ (s : SysState) (op : Op) (u' : String),
      (aget s.pool.users u').isSome → (aget (stepOp s op).pool.users u').isSome) := by
  refine ⟨?_, ?_, ?_, ?_, ?_⟩
  · simp [signup, hnew]
  · simp [signup, hnew, aget_aset_self]
  · simp [signup, hnew, aget_aset_self]
  · simp [signup, hnew, aget_aset_self]
  · intro s op u' hs
    cases op with
    | initTokens =>
        simp only [stepOp, init_tokens]
        split <;> simpa using hs
    | signupOp v n =>
        simp only [stepOp, signup]
        split
        · simpa using hs
        · exact aget_aset_isSome _ _ _ _ hs
    | setAiProxy p => simpa using hs
    | addToken t p =>
        simp only [stepOp, add_token]
        split <;> simpa using hs
    | depositOp c t a tk mk =>
        cases htc : aget s.pool.token_canisters t with
        | none => simp only [stepOp, deposit, htc]; simpa using hs
        | some q =>
            cases tk <;> cases mk <;>
              simp only [stepOp, deposit, htc, log_mint] <;> simpa using hs
    | withdrawCollateralOp v t a =>
        simp only [stepOp, withdraw_collateral]
        split <;> simpa using hs
    | borrowOp c t a r mk =>
        cases hacc : aget s.pool.users c with
        | none => simp only [stepOp, borrow, hacc]; simpa using hs
        | some account =>
            cases hrc : (risk_check s.proxy account r).1 with
            | none =>
                simp only [stepOp, borrow, hacc, hrc]
                exact aget_aset_isSome _ _ _ _ hs
            | some resp =>
                cases htc : aget s.pool.token_canisters t with
                | none =>
                    simp only [stepOp, borrow, hacc, hrc, htc]
                    exact aget_aset_isSome _ _ _ _ hs
                | some q =>
                    simp only [stepOp, borrow, hacc, hrc, htc, log_mint]
                    exact aget_aset_isSome _ _ _ _ hs
    | repayOp c t a =>
        simp only [stepOp, repay]
        split <;> simpa using hs
    | depositCollateralOp c t a r =>
        cases hacc : aget s.pool.users c with
        | none => simp only [stepOp, deposit_collateral, hacc]; simpa using hs
        | some account =>
            simp only [stepOp, deposit_collateral, hacc]
            exact aget_aset_isSome _ _ _ _ hs
    | contributeCrowdfundOp c t a mk =>
        cases htc : aget s.pool.token_canisters t with
        | none => simp only [stepOp, contribute_crowdfund, htc]; simpa using hs
        | some q =>
            cases mk <;> simp only [stepOp, contribute_crowdfund, htc, log_mint] <;>
              simpa using hs

/-- Witness for C9 at a concrete input: bob signs up twice in `poolColl`. -/
theorem C9_witness :
    aget poolColl.users "bob" = none ∧
    ((signup poolColl "bob" "Bob").1 = true ∧
     aget (signup poolColl "bob" "Bob").2.users "bob" = some { credit_score := 700 } ∧
     (signup (signup poolColl "bob" "Bob").2 "bob" "Bobby").1 = false ∧
     (signup (signup poolColl "bob" "Bob").2 "bob" "Bobby").2
        = (signup poolColl "bob" "Bob").2 ∧
     (∀ (s : SysState) (op : Op) (u' : String),
       (aget s.pool.users u').isSome → (aget (stepOp s op).pool.users u').isSome)) :=
  ⟨by decide, C9_theorem poolColl "bob" "Bob" "Bobby" (by decide)⟩

/-! ### C10 -/

/-- The crowdfund state produced by `contribute_crowdfund` is the same in
every external-call branch: both the global total and the caller's entry
grow by the amount. -/
theorem contribute_cf_eq (cf : CrowdfundingPool) (pool : DeFiPool)
    (caller token : String) (amount : Nat) (mintOk : Bool) :
    (contribute_crowdfund cf pool caller token amount mintOk).2.1 =
      { funds := aset cf.funds token (getOr cf.funds token 0 + amount)
        contributors := aset cf.contributors caller
          (aset (getOr cf.contributors caller []) token
            (getOr (getOr cf.contributors caller []) token 0 + amount)) } := by
  cases htc : aget pool.token_canisters token with
  | none => simp [contribute_crowdfund, htc]
  | some q => cases mintOk <;> simp [contribute_crowdfund, htc]

theorem CFinv_contribute (cf : CrowdfundingPool) (pool : DeFiPool)
    (caller token : String) (amount : Nat) (mintOk : Bool) (h : CFinv cf) :
    CFinv (contribute_crowdfund cf pool caller token amount mintOk).2.1 := by
  rw [contribute_cf_eq]
  intro t
  by_cases ht : t = token
  · subst ht
    have hstep : sumContrib (aset cf.contributors caller
          (aset (getOr cf.contributors caller []) t
            (getOr (getOr cf.contributors caller []) t 0 + amount))) t
        = sumContrib cf.contributors t + amount :=
      sumContrib_aset _ _ _ _ _ (by rw [getOr_aset_self])
    simp only [getOr_aset_self, hstep, h t]
  · have hstep : sumContrib (aset cf.contributors caller
          (aset (getOr cf.contributors caller []) token
            (getOr (getOr cf.contributors caller []) token 0 + amount))) t
        = sumContrib cf.contributors t + 0 :=
      sumContrib_aset _ _ _ _ _ (by simp [getOr_aset_ne _ _ _ _ _ ht])
    simp only [getOr_aset_ne _ _ _ _ _ ht, hstep, h t, Nat.add_zero]

theorem CFinv_step (s : SysState) (op : Op) (h : CFinv s.cf) :
    CFinv (stepOp s op).cf := by
  cases op
  case contributeCrowdfundOp c t a mk => exact CFinv_contribute _ _ _ _ _ _ h
  all_goals exact h

theorem CFinv_runOps (ops : List Op) (s : SysState) (h : CFinv s.cf) :
    CFinv (runOps ops s).cf := by
  induction ops generalizing s with
  | nil => exact h
  | cons op rest ih => exact ih (stepOp s op) (CFinv_step s op h)

/-- C10: from the empty system state, after any sequence of operations,
each token's crowdfund global total equals the sum over users of that
user's recorded contribution; each `contribute_crowdfund` call increments
the global total and the caller's own entry by exactly the amount, and no
other operation touches the crowdfund state. -/
theorem C10_theorem :
    (∀ ops : List Op, CFinv (runOps ops {}).cf) ∧
    (∀ (cf : CrowdfundingPool) (pool : DeFiPool) (caller token : String)
        (amount : Nat) (mintOk : Bool),
      getOr (contribute_crowdfund cf pool caller token amount mintOk).2.1.funds token 0
          = getOr cf.funds token 0 + amount ∧
      getOr (getOr (contribute_crowdfund cf pool caller token
            amount mintOk).2.1.contributors caller []) token 0
          = getOr (getOr cf.contributors caller []) token 0 + amount) ∧
    (∀ (s : SysState) (op : Op),
      (stepOp s op).cf = s.cf ∨
      ∃ c t a mk, op = Op.contributeCrowdfundOp c t a mk) := by
  refine ⟨?_, ?_, ?_⟩
  · intro ops
    exact CFinv_runOps ops {} (fun t => rfl)
  · intro cf pool caller token amount mintOk
    rw [contribute_cf_eq]
    exact ⟨getOr_aset_self _ _ _ _, by rw [getOr_aset_self, getOr_aset_self]⟩
  · intro s op
    cases op
    case contributeCrowdfundOp c t a mk => exact Or.inr ⟨c, t, a, mk, rfl⟩
    all_goals exact Or.inl rfl

end DefiPool
